import Mathlib

/-!
Shallow embedding of `src/hydromodel/trainers/evaluate.py` (hydro-model-xaj),
the calibration-result aggregation and re-simulation pipeline.

Numeric values (numpy float arrays, csv scalars) are modelled exactly as
rationals.  The filesystem touched by the pipeline is modelled as a map from
path strings to parsed file contents.  Fatal Python exceptions (KeyError,
ValueError from numpy/pandas shape checks, spotpy reductions over empty
arrays) are modelled as `Except` errors named after the abstract error classes
of the specification where the spec names them, and after the concrete
exception otherwise.
-/

namespace HydroModel

/-- Scalar values of the pipeline (Python floats / csv numbers), modelled exactly. -/
abbrev Q : Type := ℚ

/-- Fatal errors of the pipeline.  Each constructor abstracts one concrete
Python exception site: `EmptyPopulation` the numpy reduction over a zero-size
objective column, `InconsistentParameterLength` the `np.vstack` shape error,
`EmptyVstack` `np.vstack` over an empty list, `MissingParameterFile` a missing
per-basin file, `LengthMismatch` a pandas index/columns length error,
`IndexOutOfRange` a numpy column index error, `MetricSchemaMismatch` the
KeyError in the metric accumulation loop, `WarmupAlignmentError` the pandas
row-count check against the warm-up-trimmed time index. -/
inductive PipelineError : Type
  | EmptyPopulation
  | InconsistentParameterLength
  | EmptyVstack
  | MissingParameterFile
  | LengthMismatch
  | IndexOutOfRange
  | MetricSchemaMismatch
  | WarmupAlignmentError
deriving DecidableEq, Repr

/-- The filesystem slice the pipeline touches: per-path parsed numeric file
contents (each per-basin parameter file is a single numeric column). -/
structure FsState : Type where
  files : String → Option (List Q)

/-- Writing a file: overwrites whatever was stored at `path`. -/
def FsState.write (σ : FsState) (path : String) (content : List Q) : FsState :=
  ⟨fun p => if p = path then some content else σ.files p⟩

/-- Path of a basin's persisted parameter file:
`os.path.join(save_dir, basin_id + "_calibrate_params.txt")`. -/
def paramFile (dir basin_id : String) : String :=
  dir ++ "/" ++ basin_id ++ "_calibrate_params.txt"

/-- One record of an optimizer result population: the objective value
(the `like1` column) together with the values of all named fields of the
structured array, aligned with the population's field-name list. -/
structure SpotpyRecord : Type where
  like1 : Q
  vals : List Q
deriving DecidableEq, Repr

/-- An optimizer result population as loaded from the SCE-UA csv: the
structured dtype field names and one record per evaluated candidate. -/
structure ResultPopulation : Type where
  fieldNames : List String
  records : List SpotpyRecord
deriving DecidableEq, Repr

/-- Modelled from the spec: `spotpy.analyser.get_minlikeindex` (the external
optimizer's analyser, not part of this repository).  It reduces the `like1`
objective column with `np.nanmin` and returns the position of the first
occurrence of that minimum together with the minimum itself; the numpy
reduction over a zero-size column is a fatal error. -/
def get_minlikeindex : List Q → Except PipelineError (Nat × Q)
  | [] => .error .EmptyPopulation
  | x :: xs =>
    match get_minlikeindex xs with
    | .error _ => .ok (0, x)
    | .ok (j, m) => if x ≤ m then .ok (0, x) else .ok (j + 1, m)

/-- `best_model_run = results[bestindex]` (evaluate.py line 50), with
`bestindex` from `get_minlikeindex` over the objective column. -/
def best_model_run (pop : ResultPopulation) : Except PipelineError SpotpyRecord := do
  let im ← get_minlikeindex (pop.records.map SpotpyRecord.like1)
  .ok (pop.records.getD im.1 ⟨0, []⟩)

/-- Python's `str.startswith`, modelled on the character lists of the two
strings. -/
def pyStartswith (w pat : String) : Bool :=
  pat.data.isPrefixOf w.data

/-- The field filter of evaluate.py line 51: keep exactly the fields whose
name starts with `"par"`, in dtype order, and extract the best record's
values at those fields. -/
def parValues (fieldNames : List String) (r : SpotpyRecord) : List Q :=
  ((fieldNames.zip r.vals).filter (fun p => pyStartswith p.1 "par")).map Prod.snd

/-- The pure part of `read_save_sceua_calibrated_params` (evaluate.py lines
46-55): select the best record and keep its parameter-field values.  The
returned one-row array and its later `flatten` are both the same value list. -/
def calibratedVec (pop : ResultPopulation) : Except PipelineError (List Q) := do
  let best ← best_model_run pop
  .ok (parValues pop.fieldNames best)

/-- `read_save_sceua_calibrated_params` (evaluate.py lines 27-55): selects the
best record of the basin's population, writes the selected parameter column to
`save_dir/basin_id_calibrate_params.txt` (`to_csv`, overwriting), and returns
the selected values.  The selection failure happens before the write, so an
erroring call leaves the state unchanged. -/
def read_save_sceua_calibrated_params (basin_id save_dir : String)
    (pop : ResultPopulation) (σ : FsState) :
    Except PipelineError (List Q × FsState) := do
  let ps ← calibratedVec pop
  .ok (ps, σ.write (paramFile save_dir basin_id) ps)

/-- `np.vstack` over the collected per-basin rows: an empty list and rows of
unequal length are fatal numpy errors, otherwise the rows are stacked in
order. -/
def vstack : List (List Q) → Except PipelineError (List (List Q))
  | [] => .error .EmptyVstack
  | r :: rs =>
    if rs.all (fun x => x.length = r.length) then .ok (r :: rs)
    else .error .InconsistentParameterLength

/-- The loop body of `read_all_basin_params` (evaluate.py lines 58-67): for
each basin re-run selection from that basin's optimizer results (writing that
basin's parameter file as a side effect) and collect the flattened vector.
The state is returned also on failure, keeping the writes already made. -/
def read_all_aux (save_dir : String) (pops : String → ResultPopulation) :
    List String → FsState → Except PipelineError (List (List Q)) × FsState
  | [], σ => (.ok [], σ)
  | b :: bs, σ =>
    match read_save_sceua_calibrated_params b save_dir (pops b) σ with
    | .error e => (.error e, σ)
    | .ok (p, σ2) =>
      match read_all_aux save_dir pops bs σ2 with
      | (.error e, σ3) => (.error e, σ3)
      | (.ok ps, σ3) => (.ok (p :: ps), σ3)

/-- `read_all_basin_params` (evaluate.py lines 58-67): run the per-basin
selection loop, then `np.vstack` the collected vectors. -/
def read_all_basin_params (basins : List String) (save_dir : String)
    (pops : String → ResultPopulation) (σ : FsState) :
    Except PipelineError (List (List Q)) × FsState :=
  match read_all_aux save_dir pops basins σ with
  | (.error e, σ2) => (.error e, σ2)
  | (.ok ps, σ2) => (vstack ps, σ2)

/-- A wide labelled table (a pandas DataFrame): row labels (the index), column
labels, and the cell grid in row-major order. -/
structure WideTable : Type where
  rowLabels : List String
  colLabels : List String
  rows : List (List Q)
deriving DecidableEq, Repr

/-- Rows `i, i+1, ..., i+k-1` of the transpose of the column-major grid
`cols`: row `i+j` holds, for each column, that column's entry at `i+j`. -/
def transposeFrom (cols : List (List Q)) (i : Nat) : Nat → List (List Q)
  | 0 => []
  | k + 1 => cols.map (fun c => c.getD i 0) :: transposeFrom cols (i + 1) k

/-- Row-major transpose of a column-major grid with `n` rows (the pandas
`.transpose()` on a table all of whose columns have length `n`). -/
def transposeGrid (cols : List (List Q)) (n : Nat) : List (List Q) :=
  transposeFrom cols 0 n

/-- `pd.read_csv` of a per-basin parameter file: the parsed single column, or
a fatal error when the file is absent. -/
def read_params_txt (σ : FsState) (path : String) : Except PipelineError (List Q) :=
  match σ.files path with
  | none => .error .MissingParameterFile
  | some v => .ok v

/-- The loop of `summarize_parameters` (evaluate.py lines 106-113): read each
basin's stored column, turn it into a one-row frame labelled by the declared
parameter names (`pd.DataFrame(params_txt.values.T, columns=columns)`, a
fatal pandas shape error when the lengths disagree), and collect the rows. -/
def summarize_rows (σ : FsState) (result_dir : String) (param_name : List String) :
    List String → Except PipelineError (List (List Q))
  | [] => .ok []
  | b :: bs =>
    match read_params_txt σ (paramFile result_dir b) with
    | .error e => .error e
    | .ok v =>
      if v.length = param_name.length then
        match summarize_rows σ result_dir param_name bs with
        | .error e => .error e
        | .ok rest => .ok (v :: rest)
      else .error .LengthMismatch

/-- `summarize_parameters` (evaluate.py lines 91-119): stack the per-basin
one-row frames (`pd.concat(..., axis=0)`), label the rows with the basin ids,
transpose, and persist the consolidated table (rows = parameter names,
columns = basin ids). -/
def summarize_parameters (result_dir : String) (param_name : List String)
    (basin_ids : List String) (σ : FsState) : Except PipelineError WideTable := do
  let rows ← summarize_rows σ result_dir param_name basin_ids
  .ok ⟨param_name, basin_ids, transposeGrid rows param_name.length⟩

/-- The list comprehension of `renormalize_params` (evaluate.py lines
129-132), scanning the declared bound table from column index `i` on:
`(value[1] - value[0]) * params[:, i] + value[0]` for the `i`-th declared
bound `(key, value)`; a column index beyond the loaded row is a fatal numpy
index error. -/
def xaj_params_go (params : List Q) (i : Nat) :
    List (String × Q × Q) → Except PipelineError (List Q)
  | [] => .ok []
  | (_, lo, hi) :: rest =>
    match params[i]? with
    | none => .error .IndexOutOfRange
    | some x => do
      let ys ← xaj_params_go params (i + 1) rest
      .ok (((hi - lo) * x + lo) :: ys)

/-- Denormalization of one basin's loaded row against the declared bound
table (evaluate.py lines 128-133). -/
def xaj_params (params : List Q) (param_ranges : List (String × Q × Q)) :
    Except PipelineError (List Q) :=
  xaj_params_go params 0 param_ranges

/-- The loop of `renormalize_params` (evaluate.py lines 124-135): for each
basin, `np.loadtxt` the basin's parameter file (the csv header row of the
stored file itself parses as a number), drop the first parsed value
(`[1:]`), denormalize against the declared bounds, and collect the resulting
single-column frame. -/
def renormalize_cols (result_dir : String) (param_ranges : List (String × Q × Q))
    (loadtxt : String → List Q) : List String → Except PipelineError (List (List Q))
  | [] => .ok []
  | b :: bs => do
    let ys ← xaj_params ((loadtxt (paramFile result_dir b)).drop 1) param_ranges
    let rest ← renormalize_cols result_dir param_ranges loadtxt bs
    .ok (ys :: rest)

/-- `renormalize_params` (evaluate.py lines 122-141): collect the per-basin
denormalized columns (`pd.concat(..., axis=1)`), label the rows with the
model's declared parameter-name list (a fatal pandas length error when the
name list does not match the row count) and the columns with the basin ids. -/
def renormalize_params (result_dir : String) (param_ranges : List (String × Q × Q))
    (param_name : List String) (basin_ids : List String)
    (loadtxt : String → List Q) : Except PipelineError WideTable := do
  let cols ← renormalize_cols result_dir param_ranges loadtxt basin_ids
  if param_name.length = param_ranges.length then
    .ok ⟨param_name, basin_ids, transposeGrid cols param_name.length⟩
  else .error .LengthMismatch

/-- Modelled from the spec: a per-basin per-split metrics file (consumed,
written outside this repository's src) is one structured key-value document,
keys = metric names, values = scalars; modelled as the insertion-ordered
key-value list of the parsed JSON object. -/
abbrev MetricMap : Type := List (String × Q)

/-- Key list of a metric mapping, in stored order. -/
def metricKeys (m : MetricMap) : List String := m.map Prod.fst

/-- `train_metrics[key] = train_metrics[key] + value` (evaluate.py lines
175/180): replace the value stored at `key` by its sum with `x`; `none`
models the KeyError when `key` is absent from the accumulator. -/
def updateAdd : MetricMap → String → Q → Option MetricMap
  | [], _, _ => none
  | (k, v) :: rest, key, x =>
    if k = key then some ((k, v + x) :: rest)
    else
      match updateAdd rest key x with
      | none => none
      | some r => some ((k, v) :: r)

/-- The inner accumulation loop of `summarize_metrics` for one basin past the
first (evaluate.py lines 171-180): fold the basin's own key-value pairs into
the accumulator; a key absent from the accumulator is a fatal KeyError. -/
def foldBasin (acc : MetricMap) : MetricMap → Except PipelineError MetricMap
  | [] => .ok acc
  | (k, x) :: rest =>
    match updateAdd acc k x with
    | none => .error .MetricSchemaMismatch
    | some acc2 => foldBasin acc2 rest

/-- The basin loop of `summarize_metrics` past the first basin: accumulate
each later basin's train mapping, then its test mapping. -/
def aggregateRest (t s : MetricMap) :
    List (MetricMap × MetricMap) → Except PipelineError (MetricMap × MetricMap)
  | [] => .ok (t, s)
  | (tm, sm) :: rest => do
    let t2 ← foldBasin t tm
    let s2 ← foldBasin s sm
    aggregateRest t2 s2 rest

/-- `summarize_metrics` (evaluate.py lines 144-187), on the sequence of
per-basin (train, test) metric mappings in discovery order: the first basin's
mappings seed the accumulators (`count == 0`), every later basin is folded in.
The final `pd.DataFrame(dict_of_scalars, index=basin_ids)` broadcasts each
accumulated scalar across all basin rows and performs no schema check, so the
accumulators themselves are the aggregation result. -/
def summarize_metrics :
    List (MetricMap × MetricMap) → Except PipelineError (MetricMap × MetricMap)
  | [] => .ok ([], [])
  | (t0, s0) :: rest => aggregateRest t0 s0 rest

/-- Modelled from the spec: the xaj simulator (`hydromodel/models/xaj.py`,
imported at evaluate.py line 24, not under src).  Per the spec's call
contract, parameters + forcing give a discharge and an evapotranspiration
series; the simulator consumes a warm-up window of `warmup_length` leading
steps before producing reportable output, so the reportable
evapotranspiration series is the per-step series with the first
`warmup_length` entries dropped, and a forcing period shorter than the
warm-up cannot be aligned and is a fatal error.  `et` is the simulator's
per-step evapotranspiration series over the full forcing period of one
basin. -/
def xaj_et (et : List Q) (warmup_length : Nat) : Except PipelineError (List Q) :=
  if et.length < warmup_length then .error .WarmupAlignmentError
  else .ok (et.drop warmup_length)

/-- The per-basin loop of `read_and_save_et_ouputs` (evaluate.py lines
234-248): invoke the simulator once per split per basin with the same
`warmup_length`, keeping only the evapotranspiration series. -/
def et_pairs (etTrain etTest : String → List Q) (w : Nat) :
    List String → Except PipelineError (List (List Q × List Q))
  | [] => .ok []
  | b :: bs => do
    let etr ← xaj_et (etTrain b) w
    let ets ← xaj_et (etTest b) w
    let rest ← et_pairs etTrain etTest w bs
    .ok ((etr, ets) :: rest)

/-- One split's output table (evaluate.py lines 249-254):
`pd.DataFrame(np.array(es).T, columns=basins_id, index=period[warmup:])`; the
pandas constructor checks the data row count against the trimmed time index
and a mismatch is fatal.  The check is modelled for a non-empty basin list,
where `np.array(es)` has an unambiguous row count. -/
def et_table (es : List (List Q)) (basins : List String) (timeIdx : List String) :
    Except PipelineError WideTable :=
  if es.all (fun e => e.length = timeIdx.length) then
    .ok ⟨timeIdx, basins, transposeGrid es timeIdx.length⟩
  else .error .WarmupAlignmentError

/-- `read_and_save_et_ouputs` (evaluate.py lines 208-258), after its input
loading: replay the simulator for every basin on both splits and assemble one
wide evapotranspiration table per split, rows = post-warm-up time steps,
columns = basin ids in input order. -/
def read_and_save_et_ouputs (basins : List String) (etTrain etTest : String → List Q)
    (train_period test_period : List String) (w : Nat) :
    Except PipelineError (WideTable × WideTable) :=
  match et_pairs etTrain etTest w basins with
  | .error e => .error e
  | .ok es =>
    match et_table (es.map Prod.fst) basins (train_period.drop w) with
    | .error e => .error e
    | .ok t1 =>
      match et_table (es.map Prod.snd) basins (test_period.drop w) with
      | .error e => .error e
      | .ok t2 => .ok (t1, t2)

/-! ### Helper lemmas -/

/-- Distinct basin ids get distinct parameter-file paths. -/
lemma paramFile_inj (d : String) {b b' : String} (h : paramFile d b = paramFile d b') :
    b = b' := by
  apply String.ext
  have hd := congrArg String.data h
  simp only [paramFile, String.data_append, List.append_assoc] at hd
  have h1 := List.append_cancel_left (List.append_cancel_left hd)
  exact List.append_cancel_right h1

/-- `getElem?` at an in-range index is `some` of the `getD` value. -/
lemma getElem?_eq_some_getD {α : Type _} (l : List α) (i : Nat) (d : α) (h : i < l.length) :
    l[i]? = some (l.getD i d) := by
  induction l generalizing i with
  | nil => simp at h
  | cons a t ih =>
    cases i with
    | zero => simp
    | succ n =>
      simp only [List.getElem?_cons_succ, List.getD_cons_succ]
      exact ih n (by simpa using Nat.lt_of_succ_lt_succ h)

/-- `getD` at an in-range index is a member of the list. -/
lemma getD_mem_of_lt {α : Type _} (l : List α) (i : Nat) (d : α) (h : i < l.length) :
    l.getD i d ∈ l := by
  induction l generalizing i with
  | nil => simp at h
  | cons a t ih =>
    cases i with
    | zero => simp
    | succ n =>
      simp only [List.getD_cons_succ]
      exact List.mem_cons_of_mem _ (ih n (by simpa using Nat.lt_of_succ_lt_succ h))

/-- `getD` commutes with `map` at an in-range index. -/
lemma getD_map_of_lt {α β : Type _} (f : α → β) (l : List α) (i : Nat) (d : β) (d' : α)
    (h : i < l.length) : (l.map f).getD i d = f (l.getD i d') := by
  induction l generalizing i with
  | nil => simp at h
  | cons a t ih =>
    cases i with
    | zero => rfl
    | succ n =>
      simp only [List.map_cons, List.getD_cons_succ]
      exact ih n (by simpa using Nat.lt_of_succ_lt_succ h)

/-- `getD` after dropping one leading entry reads one position further. -/
lemma getD_drop_one {α : Type _} (l : List α) (i : Nat) (d : α) :
    (l.drop 1).getD i d = l.getD (i + 1) d := by
  cases l with
  | nil => rfl
  | cons a t => rfl

/-- `transposeFrom` produces exactly the requested number of rows. -/
lemma transposeFrom_length (cols : List (List Q)) (i k : Nat) :
    (transposeFrom cols i k).length = k := by
  induction k generalizing i with
  | zero => rfl
  | succ n ih => simp [transposeFrom, ih]

/-- Row `j` of `transposeFrom cols i k` gathers each column's entry `i + j`. -/
lemma transposeFrom_getD (cols : List (List Q)) (i k j : Nat) (hj : j < k) :
    (transposeFrom cols i k).getD j [] = cols.map (fun c => c.getD (i + j) 0) := by
  induction k generalizing i j with
  | zero => omega
  | succ n ih =>
    cases j with
    | zero => simp [transposeFrom]
    | succ m =>
      simp only [transposeFrom, List.getD_cons_succ]
      rw [ih (i + 1) m (by omega)]
      have : i + 1 + m = i + (m + 1) := by omega
      rw [this]

/-- The transposed grid has the requested number of rows. -/
lemma transposeGrid_length (cols : List (List Q)) (n : Nat) :
    (transposeGrid cols n).length = n :=
  transposeFrom_length cols 0 n

/-- Cell `(i, j)` of the transposed grid is cell `(j, i)` of the column-major
grid. -/
lemma transposeGrid_getD (cols : List (List Q)) (n i j : Nat) (hi : i < n)
    (hj : j < cols.length) :
    ((transposeGrid cols n).getD i []).getD j 0 = (cols.getD j []).getD i 0 := by
  unfold transposeGrid
  rw [transposeFrom_getD cols 0 n i hi]
  simpa using getD_map_of_lt (fun c => c.getD i 0) cols j 0 [] hj

/-- On a non-empty objective column the analyser never fails. -/
lemma get_minlikeindex_cons_ok (x : Q) (xs : List Q) :
    ∃ p, get_minlikeindex (x :: xs) = .ok p := by
  cases hgm : get_minlikeindex xs with
  | error e => exact ⟨(0, x), by simp [get_minlikeindex, hgm]⟩
  | ok p =>
    obtain ⟨j, m⟩ := p
    by_cases hxm : x ≤ m
    · exact ⟨(0, x), by simp [get_minlikeindex, hgm, hxm]⟩
    · exact ⟨(j + 1, m), by simp [get_minlikeindex, hgm, hxm]⟩

/-- Full characterisation of the analyser on a non-empty objective column:
it returns the position of the minimum, every earlier position holds a
strictly larger value (first occurrence wins ties), and the returned value is
the column entry at the returned position. -/
lemma get_minlikeindex_spec (likes : List Q) (hne : likes ≠ []) :
    ∃ j m, get_minlikeindex likes = .ok (j, m) ∧ j < likes.length ∧
      likes.getD j 0 = m ∧ (∀ i, i < likes.length → m ≤ likes.getD i 0) ∧
      (∀ i, i < j → m < likes.getD i 0) := by
  induction likes with
  | nil => exact absurd rfl hne
  | cons x xs ih =>
    cases hgm : get_minlikeindex xs with
    | error e =>
      have hxs : xs = [] := by
        cases xs with
        | nil => rfl
        | cons y ys =>
          obtain ⟨p, hp⟩ := get_minlikeindex_cons_ok y ys
          rw [hp] at hgm
          cases hgm
      subst hxs
      refine ⟨0, x, by simp [get_minlikeindex], by simp, rfl, ?_, by omega⟩
      intro i hi
      have : i = 0 := by simpa using hi
      subst this
      exact le_refl x
    | ok p =>
      have hxs : xs ≠ [] := by
        intro h
        subst h
        simp [get_minlikeindex] at hgm
      obtain ⟨j, m, hok, hj, hget, hmin, hfirst⟩ := ih hxs
      rw [hok] at hgm
      injection hgm with hp
      subst hp
      by_cases hxm : x ≤ m
      · refine ⟨0, x, by simp [get_minlikeindex, hok, hxm], by simp, rfl, ?_, by omega⟩
        intro i hi
        cases i with
        | zero => exact le_refl x
        | succ n =>
          simp only [List.getD_cons_succ]
          exact le_trans hxm (hmin n (by simpa using Nat.lt_of_succ_lt_succ hi))
      · have hmx : m < x := lt_of_not_le hxm
        refine ⟨j + 1, m, by simp [get_minlikeindex, hok, hxm], by simpa using hj, ?_, ?_, ?_⟩
        · simpa only [List.getD_cons_succ] using hget
        · intro i hi
          cases i with
          | zero => exact le_of_lt hmx
          | succ n =>
            simp only [List.getD_cons_succ]
            exact hmin n (by simpa using Nat.lt_of_succ_lt_succ hi)
        · intro i hi
          cases i with
          | zero => exact hmx
          | succ n =>
            simp only [List.getD_cons_succ]
            exact hfirst n (Nat.lt_of_succ_lt_succ hi)

/-! ### Claim theorems: selection (C4, C6) -/

/-- Claim C4: for every non-empty optimizer result population, the best-run
selection returns the record whose objective value is the minimum over all
records, and when several records attain the minimum it returns the first
such record in the population's stored order (every earlier record has a
strictly larger objective). -/
theorem C4_select_best_minimum (pop : ResultPopulation) (hne : pop.records ≠ []) :
    ∃ j, j < pop.records.length ∧
      best_model_run pop = .ok (pop.records.getD j ⟨0, []⟩) ∧
      (∀ i, i < pop.records.length →
        (pop.records.getD j ⟨0, []⟩).like1 ≤ (pop.records.getD i ⟨0, []⟩).like1) ∧
      (∀ i, i < j →
        (pop.records.getD j ⟨0, []⟩).like1 < (pop.records.getD i ⟨0, []⟩).like1) := by
  have hmapne : pop.records.map SpotpyRecord.like1 ≠ [] := by
    intro h
    exact hne (List.map_eq_nil_iff.mp h)
  obtain ⟨j, m, hok, hj, hget, hmin, hfirst⟩ :=
    get_minlikeindex_spec (pop.records.map SpotpyRecord.like1) hmapne
  rw [List.length_map] at hj
  have hgetj : (pop.records.getD j ⟨0, []⟩).like1 = m := by
    rw [← hget]
    exact (getD_map_of_lt SpotpyRecord.like1 pop.records j 0 ⟨0, []⟩ hj).symm
  refine ⟨j, hj, ?_, ?_, ?_⟩
  · simp only [best_model_run, hok]
    rfl
  · intro i hi
    rw [hgetj, ← getD_map_of_lt SpotpyRecord.like1 pop.records i 0 ⟨0, []⟩ hi]
    exact hmin i (by simpa using hi)
  · intro i hij
    have hi : i < pop.records.length := lt_trans hij hj
    rw [hgetj, ← getD_map_of_lt SpotpyRecord.like1 pop.records i 0 ⟨0, []⟩ hi]
    exact hfirst i hij

/-- Witness for C4 at a concrete two-record population whose minimum
objective sits at index 1. -/
theorem C4_select_best_minimum_witness :
    (ResultPopulation.mk ["like1", "parK"]
        [⟨5, [5, 2]⟩, ⟨4, [4, 3]⟩]).records ≠ [] ∧
    ∃ j, j < (ResultPopulation.mk ["like1", "parK"]
        [⟨(5 : Q), [5, 2]⟩, ⟨4, [4, 3]⟩]).records.length ∧
      best_model_run (ResultPopulation.mk ["like1", "parK"]
        [⟨5, [5, 2]⟩, ⟨4, [4, 3]⟩]) =
        .ok ((ResultPopulation.mk ["like1", "parK"]
          [⟨5, [5, 2]⟩, ⟨4, [4, 3]⟩]).records.getD j ⟨0, []⟩) ∧
      (∀ i, i < (ResultPopulation.mk ["like1", "parK"]
          [⟨(5 : Q), [5, 2]⟩, ⟨4, [4, 3]⟩]).records.length →
        ((ResultPopulation.mk ["like1", "parK"]
          [⟨(5 : Q), [5, 2]⟩, ⟨4, [4, 3]⟩]).records.getD j ⟨0, []⟩).like1 ≤
          ((ResultPopulation.mk ["like1", "parK"]
            [⟨5, [5, 2]⟩, ⟨4, [4, 3]⟩]).records.getD i ⟨0, []⟩).like1) ∧
      (∀ i, i < j →
        ((ResultPopulation.mk ["like1", "parK"]
          [⟨(5 : Q), [5, 2]⟩, ⟨4, [4, 3]⟩]).records.getD j ⟨0, []⟩).like1 <
          ((ResultPopulation.mk ["like1", "parK"]
            [⟨5, [5, 2]⟩, ⟨4, [4, 3]⟩]).records.getD i ⟨0, []⟩).like1) :=
  ⟨by decide, C4_select_best_minimum _ (by decide)⟩

/-- Claim C6 counterexample: a one-record population none of whose field
names matches the `"par"` naming convention.  The claim requires selection to
fail with `MalformedRecord`; the code instead succeeds and returns an empty
parameter vector (an empty field filter gives an empty frame, which every
later step accepts). -/
theorem C6_counterexample :
    calibratedVec ⟨["like1", "simulation1"], [⟨1/2, [1/2, 3/10]⟩]⟩ = .ok [] ∧
    (ResultPopulation.mk ["like1", "simulation1"]
      [⟨(1 : Q)/2, [1/2, 3/10]⟩]).records ≠ [] ∧
    (∀ n ∈ (ResultPopulation.mk ["like1", "simulation1"]
      [⟨(1 : Q)/2, [1/2, 3/10]⟩]).fieldNames, pyStartswith n "par" = false) :=
  ⟨rfl, by decide, by decide⟩

/-- Claim C6 (amended): selection fails with `EmptyPopulation` exactly on a
population with zero records; on every non-empty population it succeeds, and
in particular when no field name matches the `"par"` naming convention it
succeeds with the empty parameter vector instead of failing. -/
theorem C6_selection_failure_modes (pop : ResultPopulation) :
    (pop.records = [] → calibratedVec pop = .error .EmptyPopulation) ∧
    (pop.records ≠ [] → ∃ v, calibratedVec pop = .ok v) ∧
    (pop.records ≠ [] → (∀ n ∈ pop.fieldNames, pyStartswith n "par" = false) →
      calibratedVec pop = .ok []) := by
  refine ⟨?_, ?_, ?_⟩
  · intro h
    simp only [calibratedVec, best_model_run, h, List.map_nil, get_minlikeindex]
    rfl
  · intro hne
    have hmapne : pop.records.map SpotpyRecord.like1 ≠ [] := by
      intro h
      exact hne (List.map_eq_nil_iff.mp h)
    obtain ⟨j, m, hok, _, _, _, _⟩ := get_minlikeindex_spec _ hmapne
    refine ⟨parValues pop.fieldNames (pop.records.getD j ⟨0, []⟩), ?_⟩
    simp only [calibratedVec, best_model_run, hok]
    rfl
  · intro hne hnames
    have hmapne : pop.records.map SpotpyRecord.like1 ≠ [] := by
      intro h
      exact hne (List.map_eq_nil_iff.mp h)
    obtain ⟨j, m, hok, _, _, _, _⟩ := get_minlikeindex_spec _ hmapne
    have hfilter : parValues pop.fieldNames (pop.records.getD j ⟨0, []⟩) = [] := by
      unfold parValues
      have : ∀ p ∈ pop.fieldNames.zip (pop.records.getD j ⟨0, []⟩).vals,
          ¬ (pyStartswith p.1 "par" = true) := by
        intro p hp
        have hmem : p.1 ∈ pop.fieldNames := (List.of_mem_zip hp).1
        simp [hnames p.1 hmem]
      rw [List.filter_eq_nil_iff.mpr this]
      rfl
    simp only [calibratedVec, best_model_run, hok]
    exact congrArg Except.ok hfilter

/-- Witness for the amended C6 at a concrete one-record population with no
`"par"`-named field: selection succeeds with the empty vector. -/
theorem C6_selection_failure_modes_witness :
    calibratedVec ⟨["like1", "simulation1"], [⟨(2 : Q), [2, 7]⟩]⟩ = .ok [] :=
  (C6_selection_failure_modes ⟨["like1", "simulation1"], [⟨(2 : Q), [2, 7]⟩]⟩).2.2
    (by decide) (by decide)

/-- When every basin's selection succeeds, the collection loop returns the
per-basin vectors in input order. -/
lemma read_all_aux_fst_ok (dir : String) (pops : String → ResultPopulation)
    (v : String → List Q) :
    ∀ (basins : List String) (σ : FsState),
      (∀ b ∈ basins, calibratedVec (pops b) = .ok (v b)) →
      (read_all_aux dir pops basins σ).1 = .ok (basins.map v) := by
  intro basins
  induction basins with
  | nil => intro σ _; rfl
  | cons b bs ih =>
    intro σ hv
    have hb : calibratedVec (pops b) = .ok (v b) := hv b (List.mem_cons_self b bs)
    have hsave : read_save_sceua_calibrated_params b dir (pops b) σ =
        .ok (v b, σ.write (paramFile dir b) (v b)) := by
      simp only [read_save_sceua_calibrated_params, hb]
      rfl
    have hrest := ih (σ.write (paramFile dir b) (v b))
      (fun x hx => hv x (List.mem_cons_of_mem b hx))
    simp only [read_all_aux, hsave]
    cases haux : read_all_aux dir pops bs (σ.write (paramFile dir b) (v b)) with
    | mk e σ3 =>
      rw [haux] at hrest
      have he : e = .ok (bs.map v) := hrest
      subst he
      rfl

/-- The collection loop touches no path other than the parameter files of the
basins it visits. -/
lemma read_all_aux_files_other (dir : String) (pops : String → ResultPopulation) :
    ∀ (basins : List String) (σ : FsState) (p : String),
      (∀ b ∈ basins, p ≠ paramFile dir b) →
      ((read_all_aux dir pops basins σ).2).files p = σ.files p := by
  intro basins
  induction basins with
  | nil => intro σ p _; rfl
  | cons b bs ih =>
    intro σ p hp
    cases hsave : read_save_sceua_calibrated_params b dir (pops b) σ with
    | error e => simp only [read_all_aux, hsave]
    | ok pr =>
      obtain ⟨ps, σ2⟩ := pr
      have hσ2 : σ2.files p = σ.files p := by
        have : σ2 = σ.write (paramFile dir b) ps := by
          simp only [read_save_sceua_calibrated_params] at hsave
          cases hcv : calibratedVec (pops b) with
          | error e => rw [hcv] at hsave; cases hsave
          | ok w =>
            rw [hcv] at hsave
            have hsave2 : (Except.ok (w, σ.write (paramFile dir b) w) :
                Except PipelineError (List Q × FsState)) = .ok (ps, σ2) := hsave
            injection hsave2 with h1
            injection h1 with h2 h3
            rw [← h3, h2]
        rw [this]
        simp only [FsState.write]
        rw [if_neg (hp b (List.mem_cons_self b bs))]
      have hrest := ih σ2 p (fun x hx => hp x (List.mem_cons_of_mem b hx))
      simp only [read_all_aux, hsave]
      cases haux : read_all_aux dir pops bs σ2 with
      | mk e σ3 =>
        rw [haux] at hrest
        cases e with
        | error msg => simpa [hσ2] using hrest
        | ok ps2 => simpa [hσ2] using hrest

/-- After the collection loop, every visited basin's parameter file holds the
freshly selected vector for that basin, whatever it held before. -/
lemma read_all_aux_files_mem (dir : String) (pops : String → ResultPopulation)
    (v : String → List Q) :
    ∀ (basins : List String) (σ : FsState),
      (∀ b ∈ basins, calibratedVec (pops b) = .ok (v b)) →
      ∀ b ∈ basins,
        ((read_all_aux dir pops basins σ).2).files (paramFile dir b) = some (v b) := by
  intro basins
  induction basins with
  | nil => intro σ _ b hb; cases hb
  | cons b0 bs ih =>
    intro σ hv b hb
    have hb0 : calibratedVec (pops b0) = .ok (v b0) := hv b0 (List.mem_cons_self b0 bs)
    have hsave : read_save_sceua_calibrated_params b0 dir (pops b0) σ =
        .ok (v b0, σ.write (paramFile dir b0) (v b0)) := by
      simp only [read_save_sceua_calibrated_params, hb0]
      rfl
    have hsnd : (read_all_aux dir pops (b0 :: bs) σ).2 =
        (read_all_aux dir pops bs (σ.write (paramFile dir b0) (v b0))).2 := by
      simp only [read_all_aux, hsave]
      cases haux : read_all_aux dir pops bs (σ.write (paramFile dir b0) (v b0)) with
      | mk e σ3 => cases e <;> rfl
    rw [hsnd]
    rcases List.mem_cons.mp hb with hbeq | hbmem
    · subst hbeq
      by_cases hbin : b ∈ bs
      · exact ih (σ.write (paramFile dir b) (v b))
          (fun x hx => hv x (List.mem_cons_of_mem b hx)) b hbin
      · have hother : ∀ x ∈ bs, paramFile dir b ≠ paramFile dir x := by
          intro x hx heq
          exact hbin (paramFile_inj dir heq ▸ hx)
        rw [read_all_aux_files_other dir pops bs _ _ hother]
        simp [FsState.write]
    · exact ih (σ.write (paramFile dir b0) (v b0))
        (fun x hx => hv x (List.mem_cons_of_mem b0 hx)) b hbmem

/-- The final state of `read_all_basin_params` is the final state of its
collection loop (the `np.vstack` step touches no file). -/
lemma read_all_snd_eq (basins : List String) (dir : String)
    (pops : String → ResultPopulation) (σ : FsState) :
    (read_all_basin_params basins dir pops σ).2 = (read_all_aux dir pops basins σ).2 := by
  unfold read_all_basin_params
  cases haux : read_all_aux dir pops basins σ with
  | mk e σ2 => cases e <;> rfl

/-- When every basin's selection succeeds, the value of
`read_all_basin_params` is `np.vstack` of the per-basin vectors in input
order. -/
lemma read_all_fst_eq (basins : List String) (dir : String)
    (pops : String → ResultPopulation) (σ : FsState) (v : String → List Q)
    (hv : ∀ b ∈ basins, calibratedVec (pops b) = .ok (v b)) :
    (read_all_basin_params basins dir pops σ).1 = vstack (basins.map v) := by
  unfold read_all_basin_params
  cases haux : read_all_aux dir pops basins σ with
  | mk e σ2 =>
    have h0 := read_all_aux_fst_ok dir pops v basins σ hv
    rw [haux] at h0
    have he : e = .ok (basins.map v) := h0
    subst he
    rfl

/-! ### Claim theorems: parameter loading (C7, C9) -/

/-- Claim C7: for every non-empty list of basin ids whose selections succeed,
`read_all_basin_params` returns the matrix whose rows are the basins' stored
vectors in the order given, and fails with `InconsistentParameterLength` when
some basin's vector length differs from the first basin's. -/
theorem C7_load_all_stacking (basins : List String) (dir : String)
    (pops : String → ResultPopulation) (σ : FsState) (v : String → List Q)
    (hv : ∀ b ∈ basins, calibratedVec (pops b) = .ok (v b))
    (hne : basins ≠ []) :
    ((∀ b ∈ basins, (v b).length = (v (basins.getD 0 "")).length) →
      (read_all_basin_params basins dir pops σ).1 = .ok (basins.map v)) ∧
    ((∃ b ∈ basins, (v b).length ≠ (v (basins.getD 0 "")).length) →
      (read_all_basin_params basins dir pops σ).1 =
        .error .InconsistentParameterLength) := by
  rw [read_all_fst_eq basins dir pops σ v hv]
  cases basins with
  | nil => exact absurd rfl hne
  | cons b0 bs =>
    constructor
    · intro hall
      have hcond : (bs.map v).all (fun x => x.length = (v b0).length) = true := by
        rw [List.all_eq_true]
        intro x hx
        obtain ⟨b, hbmem, hbx⟩ := List.mem_map.mp hx
        subst hbx
        simpa using hall b (List.mem_cons_of_mem b0 hbmem)
      simp only [List.map_cons, vstack, hcond]
      rfl
    · intro hbad
      obtain ⟨b, hbmem, hbne⟩ := hbad
      have hbbs : b ∈ bs := by
        rcases List.mem_cons.mp hbmem with hbeq | h
        · subst hbeq; simp at hbne
        · exact h
      have hcond : ¬ ((bs.map v).all (fun x => x.length = (v b0).length) = true) := by
        rw [List.all_eq_true]
        intro hall
        exact hbne (by simpa using hall (v b) (List.mem_map.mpr ⟨b, hbbs, rfl⟩))
      simp only [List.map_cons, vstack]
      rw [if_neg hcond]

/-- Witness for C7 at concrete two-basin stores: equal vector lengths stack
in order, a differing second basin fails. -/
theorem C7_load_all_stacking_witness :
    (read_all_basin_params ["a", "bb"] "d"
        (fun _ => ⟨["like1", "parK"], [⟨1, [1, 1/2]⟩]⟩) ⟨fun _ => none⟩).1 =
      .ok (["a", "bb"].map (fun _ => [(1 : Q)/2])) ∧
    (read_all_basin_params ["a", "bb"] "d"
        (fun b => if b = "a" then ⟨["like1", "parK"], [⟨1, [1, 1/2]⟩]⟩
          else ⟨["like1", "parK", "parB"], [⟨1, [1, 1/4, 3/4]⟩]⟩)
        ⟨fun _ => none⟩).1 = .error .InconsistentParameterLength :=
  ⟨(C7_load_all_stacking ["a", "bb"] "d"
      (fun _ => ⟨["like1", "parK"], [⟨1, [1, 1/2]⟩]⟩) ⟨fun _ => none⟩
      (fun _ => [(1 : Q)/2]) (fun _ _ => rfl) (by decide)).1 (by decide),
   (C7_load_all_stacking ["a", "bb"] "d"
      (fun b => if b = "a" then ⟨["like1", "parK"], [⟨1, [1, 1/2]⟩]⟩
        else ⟨["like1", "parK", "parB"], [⟨1, [1, 1/4, 3/4]⟩]⟩) ⟨fun _ => none⟩
      (fun b => if b = "a" then [(1 : Q)/2] else [(1 : Q)/4, 3/4])
      (List.forall_mem_cons.mpr ⟨rfl, List.forall_mem_cons.mpr ⟨rfl, List.forall_mem_nil _⟩⟩)
      (by decide)).2 ⟨"bb", by decide, by decide⟩⟩

/-- Claim C9: `read_all_basin_params` is not a pure read: for every basin in
its input list it re-runs best-record selection from the optimizer results
and overwrites that basin's persisted parameter file with the freshly
selected vector, whatever the file held before. -/
theorem C9_load_all_overwrites (basins : List String) (dir : String)
    (pops : String → ResultPopulation) (σ : FsState) (v : String → List Q)
    (hv : ∀ b ∈ basins, calibratedVec (pops b) = .ok (v b)) :
    ∀ b ∈ basins,
      ((read_all_basin_params basins dir pops σ).2).files (paramFile dir b) =
        some (v b) := by
  intro b hb
  rw [read_all_snd_eq]
  exact read_all_aux_files_mem dir pops v basins σ hv b hb

/-- Witness for C9: a store whose parameter file holds a stale vector is
overwritten with the freshly selected one by a single load. -/
theorem C9_load_all_overwrites_witness :
    ((read_all_basin_params ["a"] "d"
        (fun _ => ⟨["like1", "parK"], [⟨1, [1, 1/2]⟩]⟩)
        ⟨fun _ => some [9]⟩).2).files (paramFile "d" "a") = some [(1 : Q)/2] :=
  C9_load_all_overwrites ["a"] "d"
    (fun _ => ⟨["like1", "parK"], [⟨1, [1, 1/2]⟩]⟩) ⟨fun _ => some [9]⟩
    (fun _ => [(1 : Q)/2]) (fun _ _ => rfl) "a" (by decide)

/-- The accumulator update fails exactly on a key absent from the
accumulator (the KeyError site). -/
lemma updateAdd_none_iff (m : MetricMap) (k : String) (x : Q) :
    updateAdd m k x = none ↔ k ∉ metricKeys m := by
  induction m with
  | nil =>
    constructor
    · intro _ hk
      simp [metricKeys] at hk
    · intro _
      rfl
  | cons p rest ih =>
    obtain ⟨k0, v0⟩ := p
    have hkeys : metricKeys ((k0, v0) :: rest) = k0 :: metricKeys rest := rfl
    by_cases hk : k0 = k
    · subst hk
      constructor
      · intro h
        simp only [updateAdd, if_pos rfl] at h
        cases h
      · intro h
        exact absurd (hkeys ▸ List.mem_cons_self _ _) h
    · rw [hkeys]
      simp only [updateAdd, if_neg hk]
      cases hu : updateAdd rest k x with
      | none =>
        have hrest : k ∉ metricKeys rest := ih.mp hu
        constructor
        · intro _ hmem
          rcases List.mem_cons.mp hmem with he | hm
          · exact hk he.symm
          · exact hrest hm
        · intro _
          rfl
      | some r =>
        constructor
        · intro h
          cases h
        · intro h
          have hrest : k ∉ metricKeys rest := fun hm => h (List.mem_cons.mpr (Or.inr hm))
          rw [ih.mpr hrest] at hu
          cases hu

/-- A successful accumulator update keeps the key list unchanged. -/
lemma updateAdd_keys (m : MetricMap) (k : String) (x : Q) :
    ∀ m', updateAdd m k x = some m' → metricKeys m' = metricKeys m := by
  induction m with
  | nil => intro m' h; cases h
  | cons p rest ih =>
    intro m' h
    obtain ⟨k0, v0⟩ := p
    by_cases hk : k0 = k
    · subst hk
      simp only [updateAdd, if_pos rfl] at h
      injection h with h1
      subst h1
      rfl
    · simp only [updateAdd, if_neg hk] at h
      cases hu : updateAdd rest k x with
      | none => rw [hu] at h; cases h
      | some r =>
        rw [hu] at h
        injection h with h1
        subst h1
        simp only [metricKeys, List.map_cons]
        rw [show (r.map Prod.fst) = metricKeys r from rfl, ih r hu]
        rfl

/-- Folding one basin's mapping into the accumulator keeps the accumulator's
key list unchanged. -/
lemma foldBasin_keys (m : MetricMap) :
    ∀ (acc acc' : MetricMap), foldBasin acc m = .ok acc' →
      metricKeys acc' = metricKeys acc := by
  induction m with
  | nil =>
    intro acc acc' h
    injection h with h1
    subst h1
    rfl
  | cons p rest ih =>
    intro acc acc' h
    obtain ⟨k, x⟩ := p
    simp only [foldBasin] at h
    cases hu : updateAdd acc k x with
    | none => rw [hu] at h; cases h
    | some acc2 =>
      rw [hu] at h
      rw [ih acc2 acc' h]
      exact updateAdd_keys acc k x acc2 hu

/-- Folding a basin whose keys all appear in the accumulator succeeds. -/
lemma foldBasin_ok (m : MetricMap) :
    ∀ acc : MetricMap, (∀ k ∈ metricKeys m, k ∈ metricKeys acc) →
      ∃ acc', foldBasin acc m = .ok acc' := by
  induction m with
  | nil => intro acc _; exact ⟨acc, rfl⟩
  | cons p rest ih =>
    intro acc hsub
    obtain ⟨k, x⟩ := p
    have hk : k ∈ metricKeys acc := hsub k (by simp [metricKeys])
    cases hu : updateAdd acc k x with
    | none => exact absurd ((updateAdd_none_iff acc k x).mp hu) (by simpa using hk)
    | some acc2 =>
      have hsub2 : ∀ k' ∈ metricKeys rest, k' ∈ metricKeys acc2 := by
        intro k' hk'
        rw [updateAdd_keys acc k x acc2 hu]
        exact hsub k' (by simp [metricKeys] at hk' ⊢; exact Or.inr hk')
      obtain ⟨acc', h⟩ := ih acc2 hsub2
      exact ⟨acc', by simp only [foldBasin, hu]; exact h⟩

/-- Folding a basin that introduces a key unseen in the accumulator fails
with the schema-mismatch error (the KeyError). -/
lemma foldBasin_err (m : MetricMap) :
    ∀ acc : MetricMap, (∃ k ∈ metricKeys m, k ∉ metricKeys acc) →
      foldBasin acc m = .error .MetricSchemaMismatch := by
  induction m with
  | nil => intro acc h; obtain ⟨k, hk, _⟩ := h; cases hk
  | cons p rest ih =>
    intro acc hbad
    obtain ⟨k0, hk0m, hk0acc⟩ := hbad
    obtain ⟨k, x⟩ := p
    cases hu : updateAdd acc k x with
    | none => simp only [foldBasin, hu]
    | some acc2 =>
      have hkacc : k ∈ metricKeys acc := by
        by_contra hc
        exact absurd ((updateAdd_none_iff acc k x).mpr hc) (by simp [hu])
      have hk0rest : k0 ∈ metricKeys rest := by
        rcases (by simpa [metricKeys] using hk0m : k0 = k ∨ k0 ∈ metricKeys rest) with h | h
        · subst h; exact absurd hkacc hk0acc
        · exact h
      simp only [foldBasin, hu]
      exact ih acc2 ⟨k0, hk0rest, by rw [updateAdd_keys acc k x acc2 hu]; exact hk0acc⟩

/-- The accumulation over the basins past the first succeeds when every such
basin's key sets are covered by the first basin's. -/
lemma aggregateRest_ok (rest : List (MetricMap × MetricMap)) :
    ∀ t s : MetricMap,
      (∀ p ∈ rest, (∀ k ∈ metricKeys p.1, k ∈ metricKeys t) ∧
        (∀ k ∈ metricKeys p.2, k ∈ metricKeys s)) →
      ∃ r, aggregateRest t s rest = .ok r := by
  induction rest with
  | nil => intro t s _; exact ⟨(t, s), rfl⟩
  | cons p rest2 ih =>
    intro t s h
    obtain ⟨tm, sm⟩ := p
    obtain ⟨hA, hB⟩ := h (tm, sm) (List.mem_cons_self _ _)
    obtain ⟨t2, ht2⟩ := foldBasin_ok tm t hA
    obtain ⟨s2, hs2⟩ := foldBasin_ok sm s hB
    have h2 : ∀ p ∈ rest2, (∀ k ∈ metricKeys p.1, k ∈ metricKeys t2) ∧
        (∀ k ∈ metricKeys p.2, k ∈ metricKeys s2) := by
      intro q hq
      obtain ⟨h1, h2⟩ := h q (List.mem_cons_of_mem _ hq)
      rw [foldBasin_keys tm t t2 ht2, foldBasin_keys sm s s2 hs2]
      exact ⟨h1, h2⟩
    obtain ⟨r, hr⟩ := ih t2 s2 h2
    refine ⟨r, ?_⟩
    simp only [aggregateRest, ht2, hs2]
    exact hr

/-- The accumulation over the basins past the first fails with the
schema-mismatch error when some such basin brings a key outside the first
basin's key set. -/
lemma aggregateRest_err (rest : List (MetricMap × MetricMap)) :
    ∀ t s : MetricMap,
      (¬ ∀ p ∈ rest, (∀ k ∈ metricKeys p.1, k ∈ metricKeys t) ∧
        (∀ k ∈ metricKeys p.2, k ∈ metricKeys s)) →
      aggregateRest t s rest = .error .MetricSchemaMismatch := by
  induction rest with
  | nil => intro t s h; exact absurd (by intro p hp; cases hp) h
  | cons p rest2 ih =>
    intro t s h
    obtain ⟨tm, sm⟩ := p
    by_cases hA : ∀ k ∈ metricKeys tm, k ∈ metricKeys t
    · obtain ⟨t2, ht2⟩ := foldBasin_ok tm t hA
      by_cases hB : ∀ k ∈ metricKeys sm, k ∈ metricKeys s
      · obtain ⟨s2, hs2⟩ := foldBasin_ok sm s hB
        have h2 : ¬ ∀ q ∈ rest2, (∀ k ∈ metricKeys q.1, k ∈ metricKeys t2) ∧
            (∀ k ∈ metricKeys q.2, k ∈ metricKeys s2) := by
          intro hall
          apply h
          intro q hq
          rcases List.mem_cons.mp hq with hqe | hqm
          · subst hqe; exact ⟨hA, hB⟩
          · have := hall q hqm
            rw [foldBasin_keys tm t t2 ht2, foldBasin_keys sm s s2 hs2] at this
            exact this
        simp only [aggregateRest, ht2, hs2]
        exact ih t2 s2 h2
      · push_neg at hB
        obtain ⟨k, hkm, hkacc⟩ := hB
        have hs2 : foldBasin s sm = .error .MetricSchemaMismatch :=
          foldBasin_err sm s ⟨k, hkm, hkacc⟩
        simp only [aggregateRest, ht2, hs2]
        rfl
    · push_neg at hA
      obtain ⟨k, hkm, hkacc⟩ := hA
      have ht2 : foldBasin t tm = .error .MetricSchemaMismatch :=
        foldBasin_err tm t ⟨k, hkm, hkacc⟩
      simp only [aggregateRest, ht2]
      rfl

/-! ### Claim theorems: metrics aggregation (C2) -/

/-- Claim C2 counterexample: a two-basin sequence whose second basin omits
the metric name `"nse"` present in the first.  The claim requires aggregation
to fail with `MetricSchemaMismatch`; the code instead succeeds (the
accumulation loop iterates only the later basin's own keys, so an omission is
never noticed), silently reconciling the schemas. -/
theorem C2_counterexample :
    summarize_metrics [([("nse", 1)], [("nse", 2)]), ([], [])] =
      .ok ([("nse", 1)], [("nse", 2)]) ∧
    "nse" ∈ metricKeys [("nse", (1 : Q))] ∧
    "nse" ∉ metricKeys ([] : MetricMap) :=
  ⟨rfl, by decide, by decide⟩

/-- Claim C2 (amended): aggregation fails with `MetricSchemaMismatch` exactly
when some basin after the first introduces a metric name unseen in the first
basin processed; a basin that omits a metric name present in the first is
silently accepted. -/
theorem C2_metric_schema (t0 s0 : MetricMap) (rest : List (MetricMap × MetricMap)) :
    ((∀ p ∈ rest, (∀ k ∈ metricKeys p.1, k ∈ metricKeys t0) ∧
        (∀ k ∈ metricKeys p.2, k ∈ metricKeys s0)) →
      ∃ r, summarize_metrics ((t0, s0) :: rest) = .ok r) ∧
    ((¬ ∀ p ∈ rest, (∀ k ∈ metricKeys p.1, k ∈ metricKeys t0) ∧
        (∀ k ∈ metricKeys p.2, k ∈ metricKeys s0)) →
      summarize_metrics ((t0, s0) :: rest) = .error .MetricSchemaMismatch) := by
  constructor
  · intro h
    exact aggregateRest_ok rest t0 s0 h
  · intro h
    exact aggregateRest_err rest t0 s0 h

/-- Witness for the amended C2: a schema-respecting second basin aggregates
successfully; a second basin introducing the unseen name `"kge"` fails. -/
theorem C2_metric_schema_witness :
    (∃ r, summarize_metrics [([("nse", (1 : Q))], [("nse", 2)]),
      ([("nse", 10)], [("nse", 20)])] = .ok r) ∧
    summarize_metrics [([("nse", (1 : Q))], [("nse", 2)]),
      ([("kge", 10)], [("nse", 20)])] = .error .MetricSchemaMismatch :=
  ⟨(C2_metric_schema [("nse", (1 : Q))] [("nse", 2)]
      [([("nse", 10)], [("nse", 20)])]).1 (by decide),
   (C2_metric_schema [("nse", (1 : Q))] [("nse", 2)]
      [([("kge", 10)], [("nse", 20)])]).2 (by decide)⟩

/-- Full characterisation of the denormalization scan from column `i` on:
it succeeds when the scan stays within the loaded row, returns one value per
declared bound, and the `k`-th value applies the `k`-th declared bound to
column `i + k`. -/
lemma xaj_params_go_spec (params : List Q) :
    ∀ (ranges : List (String × Q × Q)) (i : Nat),
      i + ranges.length ≤ params.length →
      ∃ ys, xaj_params_go params i ranges = .ok ys ∧
        ys.length = ranges.length ∧
        ∀ k, k < ranges.length →
          ys.getD k 0 =
            ((ranges.getD k ("", 0, 0)).2.2 - (ranges.getD k ("", 0, 0)).2.1) *
              params.getD (i + k) 0 + (ranges.getD k ("", 0, 0)).2.1 := by
  intro ranges
  induction ranges with
  | nil => exact fun i _ => ⟨[], rfl, rfl, by intro k hk; simp at hk⟩
  | cons r rest ih =>
    intro i hle
    obtain ⟨nm, lo, up⟩ := r
    have hilt : i < params.length := by
      simp only [List.length_cons] at hle
      omega
    have hsome : params[i]? = some (params.getD i 0) := getElem?_eq_some_getD params i 0 hilt
    obtain ⟨ys, hok, hlen, hval⟩ := ih (i + 1) (by
      simp only [List.length_cons] at hle
      omega)
    refine ⟨((up - lo) * params.getD i 0 + lo) :: ys, ?_, by simp [hlen], ?_⟩
    · simp only [xaj_params_go, hsome, hok]
      rfl
    · intro k hk
      cases k with
      | zero => simp
      | succ n =>
        simp only [List.getD_cons_succ]
        rw [hval n (by simpa using Nat.lt_of_succ_lt_succ hk)]
        have harith : i + 1 + n = i + (n + 1) := by omega
        rw [harith]

/-- The per-basin denormalization loop succeeds when every basin's loaded row
is long enough, and returns one denormalized column per basin in input
order. -/
lemma renormalize_cols_ok (dir : String) (ranges : List (String × Q × Q))
    (loadtxt : String → List Q) :
    ∀ basins : List String,
      (∀ b ∈ basins, ranges.length ≤ ((loadtxt (paramFile dir b)).drop 1).length) →
      ∃ cols, renormalize_cols dir ranges loadtxt basins = .ok cols ∧
        cols.length = basins.length ∧
        ∀ j, j < basins.length →
          xaj_params ((loadtxt (paramFile dir (basins.getD j ""))).drop 1) ranges =
            .ok (cols.getD j []) := by
  intro basins
  induction basins with
  | nil => exact fun _ => ⟨[], rfl, rfl, by intro j hj; simp at hj⟩
  | cons b bs ih =>
    intro h
    have hb := h b (List.mem_cons_self b bs)
    obtain ⟨ys, hok, _, _⟩ :=
      xaj_params_go_spec ((loadtxt (paramFile dir b)).drop 1) ranges 0 (by omega)
    have hok2 : xaj_params ((loadtxt (paramFile dir b)).drop 1) ranges = .ok ys := hok
    obtain ⟨cols, hcols, hlen, hval⟩ := ih (fun x hx => h x (List.mem_cons_of_mem b hx))
    refine ⟨ys :: cols, ?_, by simp [hlen], ?_⟩
    · simp only [renormalize_cols, hok2, hcols]
      rfl
    · intro j hj
      cases j with
      | zero => exact hok2
      | succ n =>
        simp only [List.getD_cons_succ]
        exact hval n (by simpa using Nat.lt_of_succ_lt_succ hj)

/-! ### Claim theorems: denormalization (C3, C8, C10) -/

/-- Claim C3: for every bound table and per-basin loaded vectors of matching
length, denormalization returns, at each index `i` with bound
`(lo_i, up_i)`, the value `lo_i + normalized_i * (up_i - lo_i)`, and the
parameter-name order of the resulting table follows the bound table's
declared order (the `i`-th normalized value is mapped with the `i`-th
declared bound). -/
theorem C3_denormalization_formula (dir : String) (ranges : List (String × Q × Q))
    (names basins : List String) (loadtxt : String → List Q)
    (hmatch : names = ranges.map Prod.fst)
    (hlen : ∀ b ∈ basins, ((loadtxt (paramFile dir b)).drop 1).length = ranges.length) :
    ∃ tbl, renormalize_params dir ranges names basins loadtxt = .ok tbl ∧
      tbl.rowLabels = ranges.map Prod.fst ∧
      tbl.colLabels = basins ∧
      ∀ i, i < ranges.length → ∀ j, j < basins.length →
        (tbl.rows.getD i []).getD j 0 =
          (ranges.getD i ("", 0, 0)).2.1 +
            ((loadtxt (paramFile dir (basins.getD j ""))).drop 1).getD i 0 *
              ((ranges.getD i ("", 0, 0)).2.2 - (ranges.getD i ("", 0, 0)).2.1) := by
  obtain ⟨cols, hcols, hclen, hcval⟩ := renormalize_cols_ok dir ranges loadtxt basins
    (fun b hb => le_of_eq (hlen b hb).symm)
  have hnamelen : names.length = ranges.length := by rw [hmatch, List.length_map]
  refine ⟨⟨names, basins, transposeGrid cols names.length⟩, ?_, hmatch, rfl, ?_⟩
  · simp only [renormalize_params, hcols, if_pos hnamelen]
    rfl
  · intro i hi j hj
    simp only
    rw [transposeGrid_getD cols names.length i j (by omega) (by omega)]
    obtain ⟨ys, hok, _, hval⟩ := xaj_params_go_spec
      ((loadtxt (paramFile dir (basins.getD j ""))).drop 1) ranges 0
      (by rw [hlen (basins.getD j "") (getD_mem_of_lt basins j "" hj)]; omega)
    have hys : ys = cols.getD j [] := by
      have h2 := hcval j hj
      rw [xaj_params] at h2
      rw [hok] at h2
      injection h2
    rw [← hys, hval i hi]
    ring_nf

/-- Witness for C3 at a one-parameter, one-basin store. -/
theorem C3_denormalization_formula_witness :
    ∃ tbl, renormalize_params "d" [("K", 0, 1)] ["K"] ["b1"]
        (fun _ => [0, 1/2]) = .ok tbl ∧
      tbl.rowLabels = [("K", (0 : Q), (1 : Q))].map Prod.fst ∧
      tbl.colLabels = ["b1"] ∧
      ∀ i, i < [("K", (0 : Q), (1 : Q))].length → ∀ j, j < ["b1"].length →
        (tbl.rows.getD i []).getD j 0 =
          ([("K", (0 : Q), (1 : Q))].getD i ("", 0, 0)).2.1 +
            (((fun (_ : String) => [(0 : Q), 1/2]) (paramFile "d" (["b1"].getD j ""))).drop 1).getD i 0 *
              (([("K", (0 : Q), (1 : Q))].getD i ("", 0, 0)).2.2 -
                ([("K", (0 : Q), (1 : Q))].getD i ("", 0, 0)).2.1) :=
  C3_denormalization_formula "d" [("K", 0, 1)] ["K"] ["b1"] (fun _ => [0, 1/2])
    rfl (by decide)

/-- Claim C8: every denormalized value of an in-range normalized vector lies
within its declared bound: for normalized values in `[0, 1]` and bounds with
`lo ≤ up`, the `i`-th output lies in `[lo_i, up_i]`. -/
theorem C8_denormalized_within_bounds (params : List Q) (ranges : List (String × Q × Q))
    (hlen : ranges.length ≤ params.length)
    (hparams : ∀ x ∈ params, 0 ≤ x ∧ x ≤ 1)
    (hranges : ∀ r ∈ ranges, r.2.1 ≤ r.2.2) :
    ∃ ys, xaj_params params ranges = .ok ys ∧
      ∀ i, i < ranges.length →
        (ranges.getD i ("", 0, 0)).2.1 ≤ ys.getD i 0 ∧
        ys.getD i 0 ≤ (ranges.getD i ("", 0, 0)).2.2 := by
  obtain ⟨ys, hok, _, hval⟩ := xaj_params_go_spec params ranges 0 (by omega)
  refine ⟨ys, hok, ?_⟩
  intro i hi
  rw [hval i hi]
  have hx : params.getD (0 + i) 0 ∈ params :=
    getD_mem_of_lt params (0 + i) 0 (by omega)
  obtain ⟨hx0, hx1⟩ := hparams _ hx
  have hr : ranges.getD i ("", 0, 0) ∈ ranges := getD_mem_of_lt ranges i ("", 0, 0) hi
  have hb := hranges _ hr
  constructor
  · nlinarith
  · nlinarith

/-- Witness for C8 at the normalized vector `[0, 1]` against unit bounds. -/
theorem C8_denormalized_within_bounds_witness :
    ∃ ys, xaj_params [(0 : Q), 1] [("K", 0, 1), ("B", 0, 1)] = .ok ys ∧
      ∀ i, i < [("K", (0 : Q), (1 : Q)), ("B", 0, 1)].length →
        ([("K", (0 : Q), (1 : Q)), ("B", 0, 1)].getD i ("", 0, 0)).2.1 ≤ ys.getD i 0 ∧
        ys.getD i 0 ≤ ([("K", (0 : Q), (1 : Q)), ("B", 0, 1)].getD i ("", 0, 0)).2.2 :=
  C8_denormalized_within_bounds [(0 : Q), 1] [("K", 0, 1), ("B", 0, 1)]
    (by decide)
    (List.forall_mem_cons.mpr ⟨⟨le_refl 0, zero_le_one⟩,
      List.forall_mem_cons.mpr ⟨⟨zero_le_one, le_refl 1⟩, List.forall_mem_nil _⟩⟩)
    (List.forall_mem_cons.mpr ⟨zero_le_one,
      List.forall_mem_cons.mpr ⟨zero_le_one, List.forall_mem_nil _⟩⟩)

/-- Claim C10 counterexample: a parameter file whose parsed numeric content
has 4 values fed to a two-parameter bound table.  The claim predicts
`4 - 1 = 3` physical values; the code produces one physical value per
declared bound, here 2 (the scan is driven by the bound table, not by the
parsed row, and silently ignores the extra value). -/
theorem C10_counterexample :
    (renormalize_params "d" [("K", 0, 1), ("B", 0, 1)] ["K", "B"] ["b1"]
        (fun _ => [0, 1/2, 1/2, 1/2])).map (fun t => t.rows.length) = .ok 2 ∧
    ((fun (_ : String) => [(0 : Q), 1/2, 1/2, 1/2]) "b1").length = 4 ∧
    (2 : Nat) ≠ 4 - 1 :=
  ⟨rfl, rfl, by decide⟩

/-- Claim C10 (amended): `renormalize_params` discards the first parsed value
of each basin's loaded parameter file (the slice `[1:]`) before
denormalizing, and produces exactly one physical value per declared bound,
the `i`-th drawn from parsed position `i + 1`; the count equals `n - 1` for a
file with `n` parsed values exactly when the file carries one numeric header
row plus one value per declared parameter (`n = len(param_ranges) + 1`). -/
theorem C10_header_value_discarded (dir : String) (ranges : List (String × Q × Q))
    (names basins : List String) (loadtxt : String → List Q)
    (hnm : names.length = ranges.length)
    (hn : ∀ b ∈ basins, (loadtxt (paramFile dir b)).length = ranges.length + 1) :
    ∃ tbl, renormalize_params dir ranges names basins loadtxt = .ok tbl ∧
      (∀ b ∈ basins, tbl.rows.length = (loadtxt (paramFile dir b)).length - 1) ∧
      ∀ i, i < ranges.length → ∀ j, j < basins.length →
        (tbl.rows.getD i []).getD j 0 =
          ((ranges.getD i ("", 0, 0)).2.2 - (ranges.getD i ("", 0, 0)).2.1) *
            (loadtxt (paramFile dir (basins.getD j ""))).getD (i + 1) 0 +
            (ranges.getD i ("", 0, 0)).2.1 := by
  have hdroplen : ∀ b ∈ basins,
      ((loadtxt (paramFile dir b)).drop 1).length = ranges.length := by
    intro b hb
    rw [List.length_drop, hn b hb]
    omega
  obtain ⟨cols, hcols, hclen, hcval⟩ := renormalize_cols_ok dir ranges loadtxt basins
    (fun b hb => le_of_eq (hdroplen b hb).symm)
  refine ⟨⟨names, basins, transposeGrid cols names.length⟩, ?_, ?_, ?_⟩
  · simp only [renormalize_params, hcols, if_pos hnm]
    rfl
  · intro b hb
    simp only
    rw [transposeGrid_length, hn b hb, hnm]
    omega
  · intro i hi j hj
    simp only
    rw [transposeGrid_getD cols names.length i j (by omega) (by omega)]
    obtain ⟨ys, hok, _, hval⟩ := xaj_params_go_spec
      ((loadtxt (paramFile dir (basins.getD j ""))).drop 1) ranges 0
      (by rw [hdroplen (basins.getD j "") (getD_mem_of_lt basins j "" hj)]; omega)
    have hys : ys = cols.getD j [] := by
      have h2 := hcval j hj
      rw [xaj_params] at h2
      rw [hok] at h2
      injection h2
    rw [← hys, hval i hi]
    simp only [Nat.zero_add]
    rw [getD_drop_one]

/-- Witness for the amended C10: a file with one numeric header value plus
one value per parameter. -/
theorem C10_header_value_discarded_witness :
    ∃ tbl, renormalize_params "d" [("K", 0, 1)] ["K"] ["b1"]
        (fun _ => [0, 1/3]) = .ok tbl ∧
      (∀ b ∈ ["b1"], tbl.rows.length =
        ((fun (_ : String) => [(0 : Q), 1/3]) (paramFile "d" b)).length - 1) ∧
      ∀ i, i < [("K", (0 : Q), (1 : Q))].length → ∀ j, j < ["b1"].length →
        (tbl.rows.getD i []).getD j 0 =
          (([("K", (0 : Q), (1 : Q))].getD i ("", 0, 0)).2.2 -
              ([("K", (0 : Q), (1 : Q))].getD i ("", 0, 0)).2.1) *
            ((fun (_ : String) => [(0 : Q), 1/3]) (paramFile "d" (["b1"].getD j ""))).getD (i + 1) 0 +
            ([("K", (0 : Q), (1 : Q))].getD i ("", 0, 0)).2.1 :=
  C10_header_value_discarded "d" [("K", 0, 1)] ["K"] ["b1"] (fun _ => [0, 1/3])
    (by decide) (by decide)

/-- The summary-reading loop succeeds when every basin's file is present
with a vector of the declared length, and collects the vectors in input
order. -/
lemma summarize_rows_ok (σ : FsState) (dir : String) (param_name : List String)
    (v : String → List Q) :
    ∀ basins : List String,
      (∀ b ∈ basins, σ.files (paramFile dir b) = some (v b)) →
      (∀ b ∈ basins, (v b).length = param_name.length) →
      ∃ rows, summarize_rows σ dir param_name basins = .ok rows ∧
        rows.length = basins.length ∧
        ∀ j, j < basins.length → rows.getD j [] = v (basins.getD j "") := by
  intro basins
  induction basins with
  | nil => exact fun _ _ => ⟨[], rfl, rfl, by intro j hj; simp at hj⟩
  | cons b bs ih =>
    intro hv hlen
    have hfile : read_params_txt σ (paramFile dir b) = .ok (v b) := by
      simp only [read_params_txt, hv b (List.mem_cons_self b bs)]
    obtain ⟨rows, hrows, hrlen, hrval⟩ := ih
      (fun x hx => hv x (List.mem_cons_of_mem b hx))
      (fun x hx => hlen x (List.mem_cons_of_mem b hx))
    refine ⟨v b :: rows, ?_, by simp [hrlen], ?_⟩
    · simp only [summarize_rows, hfile]
      rw [if_pos (hlen b (List.mem_cons_self b bs))]
      simp only [hrows]
    · intro j hj
      cases j with
      | zero => rfl
      | succ n =>
        simp only [List.getD_cons_succ]
        exact hrval n (by simpa using Nat.lt_of_succ_lt_succ hj)

/-! ### Claim theorems: parameter summary (C5) -/

/-- Claim C5: for every list of basin ids whose stored vectors all have the
declared parameter count, `summarize_parameters` produces a table whose rows
are labelled with the declared parameter names in declared order, whose
columns are the basin ids in input order, and whose cells are the stored
normalized values unchanged. -/
theorem C5_summarize_parameters_table (dir : String) (param_name basins : List String)
    (σ : FsState) (v : String → List Q)
    (hv : ∀ b ∈ basins, σ.files (paramFile dir b) = some (v b))
    (hlen : ∀ b ∈ basins, (v b).length = param_name.length) :
    ∃ tbl, summarize_parameters dir param_name basins σ = .ok tbl ∧
      tbl.rowLabels = param_name ∧
      tbl.colLabels = basins ∧
      tbl.rows.length = param_name.length ∧
      ∀ i, i < param_name.length → ∀ j, j < basins.length →
        (tbl.rows.getD i []).getD j 0 = (v (basins.getD j "")).getD i 0 := by
  obtain ⟨rows, hrows, hrlen, hrval⟩ := summarize_rows_ok σ dir param_name v basins hv hlen
  refine ⟨⟨param_name, basins, transposeGrid rows param_name.length⟩, ?_, rfl, rfl,
    transposeGrid_length rows param_name.length, ?_⟩
  · simp only [summarize_parameters, hrows]
    rfl
  · intro i hi j hj
    simp only
    rw [transposeGrid_getD rows param_name.length i j hi (by omega), hrval j hj]

/-- Witness for C5 at a concrete two-basin store with two parameters: a
two-column table in input order carrying the stored vectors unchanged. -/
theorem C5_summarize_parameters_table_witness :
    ∃ tbl, summarize_parameters "d" ["K", "B"] ["b1", "b2"]
        ⟨fun p => if p = paramFile "d" "b1" then some [1/2, 3/10]
          else if p = paramFile "d" "b2" then some [1/5, 2/5] else none⟩ = .ok tbl ∧
      tbl.rowLabels = ["K", "B"] ∧
      tbl.colLabels = ["b1", "b2"] ∧
      tbl.rows.length = ["K", "B"].length ∧
      ∀ i, i < ["K", "B"].length → ∀ j, j < ["b1", "b2"].length →
        (tbl.rows.getD i []).getD j 0 =
          ((fun b => if b = "b1" then [(1 : Q)/2, 3/10] else [(1 : Q)/5, 2/5])
            (["b1", "b2"].getD j "")).getD i 0 :=
  C5_summarize_parameters_table "d" ["K", "B"] ["b1", "b2"]
    ⟨fun p => if p = paramFile "d" "b1" then some [1/2, 3/10]
      else if p = paramFile "d" "b2" then some [1/5, 2/5] else none⟩
    (fun b => if b = "b1" then [(1 : Q)/2, 3/10] else [(1 : Q)/5, 2/5])
    (List.forall_mem_cons.mpr ⟨rfl,
      List.forall_mem_cons.mpr ⟨rfl, List.forall_mem_nil _⟩⟩)
    (by decide)

/-- The per-basin replay loop succeeds when the warm-up fits both forcing
periods, and every retained evapotranspiration series has the post-warm-up
length. -/
lemma et_pairs_ok (etTrain etTest : String → List Q) (w L1 L2 : Nat) :
    ∀ basins : List String,
      (∀ b ∈ basins, (etTrain b).length = L1 ∧ (etTest b).length = L2) →
      w ≤ L1 → w ≤ L2 →
      ∃ es, et_pairs etTrain etTest w basins = .ok es ∧
        es.length = basins.length ∧
        (∀ p ∈ es, p.1.length = L1 - w ∧ p.2.length = L2 - w) := by
  intro basins
  induction basins with
  | nil => exact fun _ _ _ => ⟨[], rfl, rfl, by intro p hp; cases hp⟩
  | cons b bs ih =>
    intro hlen h1 h2
    obtain ⟨hbt, hbs⟩ := hlen b (List.mem_cons_self b bs)
    have htr : xaj_et (etTrain b) w = .ok ((etTrain b).drop w) := by
      simp only [xaj_et, hbt]
      rw [if_neg (by omega)]
    have hts : xaj_et (etTest b) w = .ok ((etTest b).drop w) := by
      simp only [xaj_et, hbs]
      rw [if_neg (by omega)]
    obtain ⟨es, hes, heslen, hesval⟩ := ih
      (fun x hx => hlen x (List.mem_cons_of_mem b hx)) h1 h2
    refine ⟨((etTrain b).drop w, (etTest b).drop w) :: es, ?_, by simp [heslen], ?_⟩
    · simp only [et_pairs, htr, hts, hes]
      rfl
    · intro p hp
      rcases List.mem_cons.mp hp with hpe | hpm
      · subst hpe
        constructor
        · simp only [List.length_drop, hbt]
        · simp only [List.length_drop, hbs]
      · exact hesval p hpm

/-! ### Claim theorems: simulation replay (C1) -/

/-- Claim C1: for every replay invocation over forcing periods of lengths
`L1`, `L2` and warm-up `w`, each split's output evapotranspiration table has
exactly `L - w` rows (the split's forcing time index with the first `w`
entries dropped); a forcing period shorter than the warm-up (e.g. length 5
with `w = 10`) fails with the fatal warm-up alignment error. -/
theorem C1_warmup_alignment (basins : List String) (etTrain etTest : String → List Q)
    (train_period test_period : List String) (w : Nat) (hne : basins ≠ [])
    (hlen : ∀ b ∈ basins, (etTrain b).length = train_period.length ∧
      (etTest b).length = test_period.length) :
    (w ≤ train_period.length → w ≤ test_period.length →
      ∃ t1 t2, read_and_save_et_ouputs basins etTrain etTest train_period test_period w =
          .ok (t1, t2) ∧
        t1.rowLabels = train_period.drop w ∧
        t1.rows.length = train_period.length - w ∧
        t1.colLabels = basins ∧
        t2.rowLabels = test_period.drop w ∧
        t2.rows.length = test_period.length - w ∧
        t2.colLabels = basins) ∧
    (train_period.length < w →
      read_and_save_et_ouputs basins etTrain etTest train_period test_period w =
        .error .WarmupAlignmentError) := by
  constructor
  · intro h1 h2
    obtain ⟨es, hes, heslen, hesval⟩ :=
      et_pairs_ok etTrain etTest w train_period.length test_period.length basins hlen h1 h2
    have hcond1 : (es.map Prod.fst).all
        (fun e => e.length = (train_period.drop w).length) = true := by
      rw [List.all_eq_true]
      intro e he
      obtain ⟨p, hpm, hpe⟩ := List.mem_map.mp he
      subst hpe
      simp [List.length_drop, (hesval p hpm).1]
    have hcond2 : (es.map Prod.snd).all
        (fun e => e.length = (test_period.drop w).length) = true := by
      rw [List.all_eq_true]
      intro e he
      obtain ⟨p, hpm, hpe⟩ := List.mem_map.mp he
      subst hpe
      simp [List.length_drop, (hesval p hpm).2]
    have ht1 : et_table (es.map Prod.fst) basins (train_period.drop w) =
        .ok ⟨train_period.drop w, basins,
          transposeGrid (es.map Prod.fst) (train_period.drop w).length⟩ := by
      unfold et_table
      rw [if_pos hcond1]
    have ht2 : et_table (es.map Prod.snd) basins (test_period.drop w) =
        .ok ⟨test_period.drop w, basins,
          transposeGrid (es.map Prod.snd) (test_period.drop w).length⟩ := by
      unfold et_table
      rw [if_pos hcond2]
    refine ⟨⟨train_period.drop w, basins,
        transposeGrid (es.map Prod.fst) (train_period.drop w).length⟩,
      ⟨test_period.drop w, basins,
        transposeGrid (es.map Prod.snd) (test_period.drop w).length⟩,
      ?_, rfl, ?_, rfl, rfl, ?_, rfl⟩
    · simp only [read_and_save_et_ouputs, hes, ht1, ht2]
    · simp only [transposeGrid_length, List.length_drop]
    · simp only [transposeGrid_length, List.length_drop]
  · intro hshort
    cases basins with
    | nil => exact absurd rfl hne
    | cons b bs =>
      have hbt : (etTrain b).length = train_period.length :=
        (hlen b (List.mem_cons_self b bs)).1
      have herr : xaj_et (etTrain b) w = .error .WarmupAlignmentError := by
        simp only [xaj_et, hbt]
        rw [if_pos (by omega)]
      simp only [read_and_save_et_ouputs, et_pairs, herr]
      rfl

/-- Witness for C1: a three-step forcing with warm-up 1 gives two-row tables
per split; a five-step forcing with warm-up 10 fails with the alignment
error. -/
theorem C1_warmup_alignment_witness :
    (∃ t1 t2, read_and_save_et_ouputs ["b1", "b2"] (fun _ => [1, 2, 3])
        (fun _ => [4, 5, 6]) ["t1", "t2", "t3"] ["u1", "u2", "u3"] 1 = .ok (t1, t2) ∧
      t1.rowLabels = ["t1", "t2", "t3"].drop 1 ∧
      t1.rows.length = ["t1", "t2", "t3"].length - 1 ∧
      t1.colLabels = ["b1", "b2"] ∧
      t2.rowLabels = ["u1", "u2", "u3"].drop 1 ∧
      t2.rows.length = ["u1", "u2", "u3"].length - 1 ∧
      t2.colLabels = ["b1", "b2"]) ∧
    read_and_save_et_ouputs ["b1"] (fun _ => [1, 2, 3, 4, 5]) (fun _ => [1, 2, 3, 4, 5])
        ["t1", "t2", "t3", "t4", "t5"] ["u1", "u2", "u3", "u4", "u5"] 10 =
      .error .WarmupAlignmentError :=
  ⟨(C1_warmup_alignment ["b1", "b2"] (fun _ => [1, 2, 3]) (fun _ => [4, 5, 6])
      ["t1", "t2", "t3"] ["u1", "u2", "u3"] 1 (by decide) (by decide)).1
      (by decide) (by decide),
   (C1_warmup_alignment ["b1"] (fun _ => [1, 2, 3, 4, 5]) (fun _ => [1, 2, 3, 4, 5])
      ["t1", "t2", "t3", "t4", "t5"] ["u1", "u2", "u3", "u4", "u5"] 10 (by decide)
      (by decide)).2 (by decide)⟩

end HydroModel
